import Mathlib

/-!
Shallow embedding of the Tech News Aggregator's core
(`utils/cluster_utils.py` and `web_scraper.py`) and proofs about it.

The `Cluster` namespace embeds `NewsClusterer`; the `Scraper` namespace
embeds the per-source scrapers and their health tracking; the `Agg`
namespace embeds `NewsAggregator.scrape_all`.
-/

namespace Py

/-- ASCII model of Python `str.isdigit()`: non-empty and all characters are
decimal digits. -/
def pyIsDigit (s : String) : Bool :=
  !s.toList.isEmpty && s.toList.all Char.isDigit

/-- The numeric value of a digit string (the value `int(...)` returns on an
all-digit input). -/
def digitsNat (l : List Char) : Nat :=
  l.foldl (fun acc c => 10 * acc + (c.toNat - 48)) 0

/-- Python `str.strip()`: drop whitespace from both ends. -/
def pyStrip (l : List Char) : List Char :=
  ((l.dropWhile Char.isWhitespace).reverse.dropWhile Char.isWhitespace).reverse

/-- Worker for `pySplit`: scan the character list, cutting at each
occurrence of the (non-empty) separator.  `fuel` only bounds the recursion
depth; one character is consumed per step, so `fuel ≥ length` makes it
exact. -/
def pySplitAux (sep : List Char) : Nat → List Char → List Char → List (List Char)
  | _, [], acc => [acc.reverse]
  | 0, rest, acc => [acc.reverse ++ rest]
  | fuel + 1, c :: cs, acc =>
      if sep.isPrefixOf (c :: cs) && !sep.isEmpty then
        acc.reverse :: pySplitAux sep fuel ((c :: cs).drop sep.length) []
      else pySplitAux sep fuel cs (c :: acc)

/-- Python `s.split(sep)` for a non-empty separator. -/
def pySplit (s sep : String) : List String :=
  (pySplitAux sep.toList s.toList.length s.toList []).map String.mk

/-- Split a character list at whitespace, dropping empty fragments (the
behaviour of Python `str.split()` with no separator). -/
def splitWS : List Char → List Char → List (List Char)
  | [], acc => if acc.isEmpty then [] else [acc.reverse]
  | c :: cs, acc =>
      if c.isWhitespace then
        if acc.isEmpty then splitWS cs [] else acc.reverse :: splitWS cs []
      else splitWS cs (c :: acc)

/-- Python `s.split()[0]`: the first whitespace-delimited token.  On an
all-whitespace string CPython raises `IndexError`; that corner is modelled
as the empty token and no theorem depends on it. -/
def pyFirstToken (s : String) : String :=
  String.mk ((splitWS s.toList []).headD [])

/-- Python `sub in s` for a non-empty `sub`. -/
def pyContains (s sub : String) : Bool :=
  decide (2 ≤ (pySplitAux sub.toList s.toList.length s.toList []).length)

/-- Python `s.startswith(pre)`. -/
def pyStartsWith (s pre : String) : Bool :=
  pre.toList.isPrefixOf s.toList

/-- Python `int(s)` on a stripped string: an optional sign followed by at
least one digit; `none` models `ValueError`.  (Underscore digit grouping and
non-ASCII digits, which CPython also accepts, are outside this model.) -/
def pyInt? : List Char → Option Int
  | '-' :: ds =>
      if !ds.isEmpty && ds.all Char.isDigit then some (-(digitsNat ds : Int)) else none
  | '+' :: ds =>
      if !ds.isEmpty && ds.all Char.isDigit then some ((digitsNat ds : Int)) else none
  | ds =>
      if !ds.isEmpty && ds.all Char.isDigit then some ((digitsNat ds : Int)) else none

end Py

namespace Cluster

open Py

/-- An input record of `NewsClusterer.cluster_articles`.  The Python code
consumes plain dicts and inspects only `title` and `score`; `title` models
`article.get('title', '')` and `score` models the string form
`str(article.get('score', 0))` of the score value (the code only ever uses
the score through `str(...)`/`int(...)`).  `link` is carried along untouched,
like every other dict field. -/
structure Article where
  title : String
  score : String
  link : String
deriving Repr, DecidableEq

/-- The sort key of `cluster_articles`:
`int(x.get('score', 0)) if str(x.get('score', 0)).isdigit() else 0`. -/
def scoreKey (a : Article) : Nat :=
  if pyIsDigit a.score then digitsNat a.score.toList else 0

/-- One step of a stable score-descending insertion sort: the new element
goes in front of the first element whose key is less than or equal to its
own.  Because the element being inserted always comes earlier in the input
than everything already in the list, this keeps ties in input order, exactly
like Python's stable `sorted(..., reverse=True)`. -/
def insertDesc (a : Article) : List Article → List Article
  | [] => [a]
  | b :: l => if scoreKey b ≤ scoreKey a then a :: b :: l else b :: insertDesc a l

/-- Stable sort by score descending, modelling
`sorted(articles, key=..., reverse=True)` in `cluster_articles`. -/
def sortDesc : List Article → List Article
  | [] => []
  | a :: l => insertDesc a (sortDesc l)

/-- `_calculate_jaccard_similarity`: `|A ∩ B| / |A ∪ B|`, and `0.0` when the
union is empty. -/
def jaccard (s1 s2 : Finset String) : ℚ :=
  if 0 < (s1 ∪ s2).card then ((s1 ∩ s2).card : ℚ) / ((s1 ∪ s2).card : ℚ) else 0

/-- ASCII model of a Python regex `\w` word character. -/
def isWordChar (c : Char) : Bool :=
  c.isAlphanum || c == '_'

/-- `re.sub(r'[^\w\s]', '', title.lower())`: lowercase, then delete every
character that is neither a word character nor whitespace. -/
def cleanTitle (title : String) : List Char :=
  (title.toList.map Char.toLower).filter (fun c => isWordChar c || c.isWhitespace)

/-- Model of NLTK `word_tokenize` applied to the cleaned (punctuation-free)
title: split on whitespace.  The real tokenizer is a third-party library
function and can deviate from whitespace splitting on a few fixed word
forms; the theorems below do not depend on the exact token boundaries it
produces. -/
def wordTokenize (cs : List Char) : List String :=
  (splitWS cs []).map String.mk

/-- `_preprocess_title`: clean and tokenize the title, then keep the tokens
that are not stop words and are either longer than 2 characters or purely
numeric.  `stopWords` models the `self.stop_words` field configured at
construction (loaded from the NLTK corpus). -/
def preprocessTitle (stopWords : Finset String) (title : String) : Finset String :=
  (wordTokenize (cleanTitle title)).toFinset.filter
    (fun w => w ∉ stopWords ∧ (2 < w.length ∨ pyIsDigit w = true))

/-- A cluster produced by `cluster_articles`: the parent article together
with its `related_articles` list, each related article paired with its
rounded `similarity_score`. -/
structure ClusterGroup where
  parent : Article
  related : List (Article × ℚ)
deriving Repr, DecidableEq

/-- Model of Python `round(x, 2)`: the exact rational ⌊100·x + 1/2⌋ / 100,
computed as `(200·num + den) fdiv (2·den) / 100`.  Half-way cases round up
here, while Python's float `round` takes the even neighbour; no theorem
below depends on the rounded value. -/
def round2 (x : ℚ) : ℚ :=
  Rat.divInt ((200 * x.num + (x.den : ℤ)).fdiv (2 * (x.den : ℤ))) 100

/-- The inner-loop test of `cluster_articles`:
`similarity >= self.similarity_threshold`. -/
def isHit (t : ℚ) (ta : Finset String) (p : Article × Finset String) : Bool :=
  decide (t ≤ jaccard ta p.2)

/-- The greedy assignment loop of `cluster_articles` over the sorted,
pre-tokenized articles.  Each unassigned article in turn becomes a parent
and claims every later unassigned article whose similarity reaches the
threshold; claimed articles are removed from the remaining pool.  The `fuel`
argument only bounds the recursion depth (the pool shrinks at every step),
so `fuel ≥ length` makes it exact. -/
def clusterLoopF (t : ℚ) : Nat → List (Article × Finset String) → List ClusterGroup
  | _, [] => []
  | 0, _ :: _ => []
  | fuel + 1, (a, ta) :: rest =>
      ⟨a, (rest.filter (isHit t ta)).map (fun p => (p.1, round2 (jaccard ta p.2)))⟩ ::
        clusterLoopF t fuel (rest.filter (fun p => !isHit t ta p))

/-- `NewsClusterer.cluster_articles`: early-return on an empty input, sort by
score descending, pre-compute each title's token set, then run the greedy
assignment loop.  `t` is the `similarity_threshold` and `stopWords` the
stop-word set, both configured at clusterer construction. -/
def clusterArticles (t : ℚ) (stopWords : Finset String) (articles : List Article) :
    List ClusterGroup :=
  if articles.isEmpty then []
  else
    clusterLoopF t articles.length
      ((sortDesc articles).map (fun a => (a, preprocessTitle stopWords a.title)))

/-- All articles mentioned by a run's output: every group's parent followed
by the articles of its related list. -/
def flattenClusters : List ClusterGroup → List Article
  | [] => []
  | c :: cs => (c.parent :: c.related.map Prod.fst) ++ flattenClusters cs

end Cluster

namespace Scraper

open Py

/-- A feedparser entry as the scrapers consume it: `title` and `link` are
always present on a parsed entry, while `description`, `published` and
`author` are optional attributes (`hasattr` checks in the code). -/
structure FeedEntry where
  title : String
  link : String
  description : Option String
  published : Option String
  author : Option String
deriving Repr, DecidableEq

/-- One dict appended to `self.articles` by a scraper's `scrape`. -/
structure ScrapedArticle where
  title : String
  link : String
  score : Int
  author : String
  time : String
  comments : String
  source : String
deriving Repr, DecidableEq

/-- The score parsing of `HackerNewsScraper.scrape`: when `'Points:' in
desc`, take the text between the first `Points:` and the next one
(`desc.split('Points:')[1]`), cut it at the first `<`
(`.split('<')[0]`), strip it and convert with `int(...)`; on a conversion
failure (or when `Points:` is absent) the score stays `0`. -/
def hnScore (desc : String) : Int :=
  match (pySplit desc "Points:").get? 1 with
  | none => 0
  | some rest => (pyInt? (pyStrip (rest.toList.takeWhile (fun c => c != '<')))).getD 0

/-- The comment parsing of `HackerNewsScraper.scrape`: when `'Comments:' in
desc`, the text between the first `Comments:` and the next one, cut at the
first `<` and stripped — used verbatim, with no numeric validation;
otherwise the default `"0"`. -/
def hnComments (desc : String) : String :=
  match (pySplit desc "Comments:").get? 1 with
  | none => "0"
  | some rest => String.mk (pyStrip (rest.toList.takeWhile (fun c => c != '<')))

/-- The dict built for one RSS entry by `HackerNewsScraper.scrape`.  A
missing `description` attribute leaves score `0` and comments `"0"`, the
same outcome as parsing an empty description, so both are modelled as `""`
here. -/
def hnEntryArticle (e : FeedEntry) : ScrapedArticle :=
  { title := e.title
    link := e.link
    score := hnScore (e.description.getD "")
    author := e.author.getD "Unknown"
    time := e.published.getD "Recent"
    comments := hnComments (e.description.getD "")
    source := "Hacker News" }

/-- The RSS success path of `HackerNewsScraper.scrape` (`feed.entries`
non-empty): one article per entry, in feed order. -/
def hnScrapeRSS (entries : List FeedEntry) : List ScrapedArticle :=
  entries.map hnEntryArticle

/-- The dict built for one RSS entry by `TechCrunchScraper.scrape`. -/
def tcEntryArticle (e : FeedEntry) : ScrapedArticle :=
  { title := e.title
    link := e.link
    score := 0
    author := e.author.getD "TechCrunch"
    time := e.published.getD "Recent"
    comments := "0"
    source := "TechCrunch" }

/-- The success path of `TechCrunchScraper.scrape`: one article per entry of
`feed.entries[:25]`. -/
def tcScrapeEntries (entries : List FeedEntry) : List ScrapedArticle :=
  (entries.take 25).map tcEntryArticle

/-- The dict built for one RSS entry by `TheVergeScraper.scrape`. -/
def tvEntryArticle (e : FeedEntry) : ScrapedArticle :=
  { title := e.title
    link := e.link
    score := 0
    author := e.author.getD "The Verge Staff"
    time := e.published.getD "Recent"
    comments := "0"
    source := "The Verge" }

/-- The success path of `TheVergeScraper.scrape`: one article per entry of
`feed.entries[:15]`. -/
def tvScrapeEntries (entries : List FeedEntry) : List ScrapedArticle :=
  (entries.take 15).map tvEntryArticle

/-- The dict built for one RSS entry by `ArsTechnicaScraper.scrape`. -/
def arsEntryArticle (e : FeedEntry) : ScrapedArticle :=
  { title := e.title
    link := e.link
    score := 0
    author := e.author.getD "Ars Staff"
    time := e.published.getD "Recent"
    comments := "0"
    source := "Ars Technica" }

/-- The success path of `ArsTechnicaScraper.scrape`: one article per entry of
`feed.entries[:15]`. -/
def arsScrapeEntries (entries : List FeedEntry) : List ScrapedArticle :=
  (entries.take 15).map arsEntryArticle

/-- One `post['data']` dict as `RedditScraper.scrape` reads it: every field
is read with `p_data.get(...)`, so `none` models an absent key (Python
`None`). -/
structure RedditPost where
  title : Option String
  url : Option String
  score : Option Int
  author : Option String
  numComments : Option Int
deriving Repr, DecidableEq

/-- The dict appended by `RedditScraper.scrape`.  `title`, `link` and
`author` are `p_data.get(...)` with no default, so they can be `None` — not
even a string — and are therefore `Option String` here; `score` defaults to
0, `comments` is `str(p_data.get('num_comments', 0))`, `time` and `source`
are constants. -/
structure RedditArticle where
  title : Option String
  link : Option String
  score : Int
  author : Option String
  time : String
  comments : String
  source : String
deriving Repr, DecidableEq

/-- The record construction of `RedditScraper.scrape` for one child post. -/
def redditEntryArticle (p : RedditPost) : RedditArticle :=
  { title := p.title
    link := p.url
    score := p.score.getD 0
    author := p.author
    time := "Today"
    comments := toString (p.numComments.getD 0)
    source := "Reddit" }

/-- The HTTP-200 path of `RedditScraper.scrape`: one record per child of
`data.children`, in response order. -/
def redditScrapeJSON (posts : List RedditPost) : List RedditArticle :=
  posts.map redditEntryArticle

/-- The subtext row of one HTML story as `_parse_html` reads it: the texts
of the optional score / author / age elements and the texts of all `<a>`
elements in the subtext cell. -/
structure HtmlSubtext where
  scoreText : Option String
  author : Option String
  age : Option String
  linkTexts : List String
deriving Repr, DecidableEq

/-- One `tr.athing` story row of the Hacker News HTML fallback.
`titleLine` is the `(text, href)` of the `span.titleline > a` element;
`none` models a missing element or attribute, whose access raises
`AttributeError` and makes `_parse_html` skip the row. -/
structure HtmlRow where
  titleLine : Option (String × String)
  subtext : Option HtmlSubtext
deriving Repr, DecidableEq

/-- Whether a story row's title element, when present, has non-empty text. -/
def HtmlRow.titleOk (row : HtmlRow) : Bool :=
  match row.titleLine with
  | none => true
  | some tl => tl.1 != ""

/-- The link normalization of `_parse_html`: a relative href is prefixed
with the site root. -/
def hnLink (href : String) : String :=
  if pyStartsWith href "http" then href else "https://news.ycombinator.com/" ++ href

/-- The comment extraction of `_parse_html`: the first whitespace token of
the first subtext link whose text contains `comment`, with the token
`discuss` normalized to `"0"`; `"0"` when no such link exists.  The token is
used without numeric validation. -/
def hnHtmlComments (links : List String) : String :=
  match links.find? (fun t => pyContains t "comment") with
  | none => "0"
  | some t => if pyFirstToken t = "discuss" then "0" else pyFirstToken t

/-- The per-row processing of `_parse_html`: `none` models `continue` — a
missing title element (`AttributeError`) or a score text whose first token
is not an integer (`ValueError` in `int(...)`) skips the row.  Otherwise the
fields default to `0` / `"Unknown"` / `"0"` and are overwritten from the
subtext elements that are present. -/
def hnHtmlRowArticle (row : HtmlRow) : Option ScrapedArticle :=
  match row.titleLine with
  | none => none
  | some (title, href) =>
    match row.subtext with
    | none =>
        some { title := title, link := hnLink href, score := 0, author := "Unknown"
               time := "Unknown", comments := "0", source := "Hacker News" }
    | some st =>
      match (match st.scoreText with
             | none => some 0
             | some s => pyInt? (pyFirstToken s).toList) with
      | none => none
      | some sc =>
          some { title := title, link := hnLink href, score := sc
                 author := st.author.getD "Unknown"
                 time := st.age.getD "Unknown"
                 comments := hnHtmlComments st.linkTexts
                 source := "Hacker News" }

/-- `_parse_html` over the story rows of one page: skipped rows contribute
nothing, the rest are appended in page order. -/
def hnParseHtml (rows : List HtmlRow) : List ScrapedArticle :=
  rows.filterMap hnHtmlRowArticle

/-- The HTML fallback `_scrape_html`: the parsed pages (one row list per
HTTP-200 response) are appended in page order. -/
def hnScrapeHtml (pages : List (List HtmlRow)) : List ScrapedArticle :=
  (pages.map hnParseHtml).flatten

/-- The outcome of one `scrape` call: either the feed parses and yields a
list of entries, or fetching/parsing raises and the handler records the
exception text.  The failure is modelled at the feed fetch, before any
article is appended. -/
inductive FetchOutcome where
  | success (entries : List FeedEntry)
  | failure (msg : String)
deriving Repr, DecidableEq

/-- Whether an outcome is a failure. -/
def FetchOutcome.isFailure : FetchOutcome → Bool
  | .failure _ => true
  | .success _ => false

/-- The mutable per-scraper state that `get_health` reads: `self.articles`,
`self.last_status` and `self.last_error` (the timing fields are wall-clock
readings and are not modelled). -/
structure ScraperState where
  articles : List ScrapedArticle
  lastStatus : String
  lastError : String
deriving Repr, DecidableEq

/-- `BaseScraper.__init__`: empty article list, status `"idle"`, empty
error string. -/
def initState : ScraperState :=
  ⟨[], "idle", ""⟩

/-- One run of `TechCrunchScraper.scrape` as a state transition.  On success
the article list is replaced and the status set to `"ok"` — `last_error` is
left untouched.  On failure the article list stays cleared, the status
becomes `"error"` and `last_error` records the exception text. -/
def tcScrape (st : ScraperState) (o : FetchOutcome) : ScraperState :=
  match o with
  | .success entries => { st with articles := tcScrapeEntries entries, lastStatus := "ok" }
  | .failure msg => { articles := [], lastStatus := "error", lastError := msg }

/-- The snapshot returned by `BaseScraper.get_health` (source name, status,
article count, last error; the timing fields are omitted). -/
structure SourceHealth where
  source : String
  status : String
  articleCount : Nat
  lastError : String
deriving Repr, DecidableEq

/-- `get_health` on the TechCrunch scraper's state. -/
def getHealth (st : ScraperState) : SourceHealth :=
  ⟨"TechCrunch", st.lastStatus, st.articles.length, st.lastError⟩

/-- A sequence of `scrape` calls starting from the freshly constructed
scraper. -/
def runAll (outs : List FetchOutcome) : ScraperState :=
  outs.foldl tcScrape initState

end Scraper

namespace Agg

open Scraper

/-- The five scrapers registered by `NewsAggregator.__init__`, identified by
class. -/
inductive SourceId where
  | hackerNews
  | techCrunch
  | reddit
  | theVerge
  | arsTechnica
deriving Repr, DecidableEq

/-- The registration order of `self.scrapers` in `NewsAggregator.__init__`. -/
def registrationOrder : List SourceId :=
  [.hackerNews, .techCrunch, .reddit, .theVerge, .arsTechnica]

/-- `NewsAggregator.CACHE_TTL` (seconds). -/
def CACHE_TTL : Nat := 300

/-- The aggregator state read and written by `scrape_all`: `self.articles`
and `self._last_scrape_time`. -/
structure AggState where
  articles : List ScrapedArticle
  lastScrapeTime : Nat
deriving Repr, DecidableEq

/-- `NewsAggregator.scrape_all`.  `results` gives each scraper's article
list for this run (what `scraper.get_articles()` returns after its `scrape`
finished); `completed` is the order in which the parallel futures complete —
the `as_completed` loop only awaits them and discards their `None` results,
so it cannot influence the collected articles.  Returns the new state
together with the number of scraper invocations submitted (0 on a cache
hit, one per registered scraper otherwise). -/
def scrape_all (results : SourceId → List ScrapedArticle) (completed : List SourceId)
    (now : Nat) (force : Bool) (s : AggState) : AggState × Nat :=
  if ¬force ∧ s.articles ≠ [] ∧ now - s.lastScrapeTime < CACHE_TTL then
    (s, 0)
  else
    (⟨(registrationOrder.map results).flatten, now⟩, registrationOrder.length)

end Agg

namespace Cluster

theorem insertDesc_perm (a : Article) (l : List Article) :
    List.Perm (insertDesc a l) (a :: l) := by
  induction l with
  | nil => simp [insertDesc]
  | cons b l ih =>
    by_cases h : scoreKey b ≤ scoreKey a
    · simp [insertDesc, h]
    · simp only [insertDesc, if_neg h]
      exact (ih.cons b).trans (List.Perm.swap a b l)

theorem sortDesc_perm (l : List Article) : List.Perm (sortDesc l) l := by
  induction l with
  | nil => simp [sortDesc]
  | cons a l ih => exact (insertDesc_perm a (sortDesc l)).trans (ih.cons a)

theorem insertDesc_pairwise (a : Article) (l : List Article)
    (h : l.Pairwise (fun x y => scoreKey y ≤ scoreKey x)) :
    (insertDesc a l).Pairwise (fun x y => scoreKey y ≤ scoreKey x) := by
  induction l with
  | nil => simp [insertDesc]
  | cons b l ih =>
    rw [List.pairwise_cons] at h
    obtain ⟨hb, hl⟩ := h
    by_cases hba : scoreKey b ≤ scoreKey a
    · simp only [insertDesc, if_pos hba]
      refine List.pairwise_cons.mpr ⟨?_, List.pairwise_cons.mpr ⟨hb, hl⟩⟩
      intro y hy
      rcases List.mem_cons.mp hy with rfl | hyl
      · exact hba
      · exact (hb y hyl).trans hba
    · simp only [insertDesc, if_neg hba]
      refine List.pairwise_cons.mpr ⟨?_, ih hl⟩
      intro y hy
      rcases List.mem_cons.mp ((insertDesc_perm a l).mem_iff.mp hy) with rfl | hyl
      · omega
      · exact hb y hyl

theorem sortDesc_sorted (l : List Article) :
    (sortDesc l).Pairwise (fun x y => scoreKey y ≤ scoreKey x) := by
  induction l with
  | nil => simp [sortDesc]
  | cons a l ih => exact insertDesc_pairwise a (sortDesc l) ih

theorem insertDesc_filter (a : Article) (l : List Article) (k : Nat) :
    (insertDesc a l).filter (fun x => scoreKey x == k) =
      if scoreKey a == k then a :: l.filter (fun x => scoreKey x == k)
      else l.filter (fun x => scoreKey x == k) := by
  induction l with
  | nil =>
    cases hak : (scoreKey a == k) <;>
      simp [insertDesc, List.filter_cons, List.filter_nil, hak]
  | cons b l ih =>
    by_cases hba : scoreKey b ≤ scoreKey a
    · cases hak : (scoreKey a == k) <;>
        simp [insertDesc, hba, List.filter_cons, hak]
    · have hab : scoreKey a < scoreKey b := by omega
      cases hak : (scoreKey a == k)
      · simp [insertDesc, hba, List.filter_cons, ih, hak]
      · have hak' : scoreKey a = k := by simpa using hak
        have hbk : (scoreKey b == k) = false := by
          simp only [beq_eq_false_iff_ne, ne_eq]
          omega
        simp [insertDesc, hba, List.filter_cons, ih, hak, hbk]

theorem sortDesc_stable (l : List Article) (k : Nat) :
    (sortDesc l).filter (fun x => scoreKey x == k) =
      l.filter (fun x => scoreKey x == k) := by
  induction l with
  | nil => rfl
  | cons a l ih =>
    simp only [sortDesc, insertDesc_filter, ih]
    by_cases hak : scoreKey a = k <;> simp [List.filter_cons, beq_iff_eq, hak]

theorem flattenClusters_length (cs : List ClusterGroup) :
    (flattenClusters cs).length = (cs.map (fun c => 1 + c.related.length)).sum := by
  induction cs with
  | nil => rfl
  | cons c cs ih =>
    simp only [flattenClusters, List.length_append, List.length_cons, List.length_map,
      List.map_cons, List.sum_cons, ih]
    omega

theorem clusterLoopF_perm (t : ℚ) (fuel : Nat) :
    ∀ l : List (Article × Finset String), l.length ≤ fuel →
      List.Perm (flattenClusters (clusterLoopF t fuel l)) (l.map Prod.fst) := by
  induction fuel with
  | zero =>
    intro l hl
    have hnil : l = [] := List.eq_nil_of_length_eq_zero (Nat.le_zero.mp hl)
    subst hnil
    simp [clusterLoopF, flattenClusters]
  | succ fuel ih =>
    intro l hl
    cases l with
    | nil => simp [clusterLoopF, flattenClusters]
    | cons head rest =>
      obtain ⟨a, ta⟩ := head
      simp only [clusterLoopF, flattenClusters, List.map_cons, List.cons_append]
      refine List.Perm.cons a ?_
      have hrem : (rest.filter (fun p => !isHit t ta p)).length ≤ fuel := by
        have := List.length_filter_le (fun p => !isHit t ta p) rest
        simp only [List.length_cons] at hl
        omega
      have hrec := ih _ hrem
      have h1 : ((rest.filter (isHit t ta)).map
            (fun p => (p.1, round2 (jaccard ta p.2)))).map Prod.fst
          = (rest.filter (isHit t ta)).map Prod.fst := by
        simp [List.map_map, Function.comp]
      rw [h1]
      refine List.Perm.trans (List.Perm.append_left _ hrec) ?_
      rw [← List.map_append]
      exact List.Perm.map Prod.fst (List.filter_append_perm (isHit t ta) rest)

theorem clusterLoopF_parent_ge (t : ℚ) (fuel : Nat) :
    ∀ l : List (Article × Finset String),
      l.Pairwise (fun p q => scoreKey q.1 ≤ scoreKey p.1) →
      ∀ c ∈ clusterLoopF t fuel l, ∀ pr ∈ c.related, scoreKey pr.1 ≤ scoreKey c.parent := by
  induction fuel with
  | zero =>
    intro l _ c hc
    cases l <;> simp [clusterLoopF] at hc
  | succ fuel ih =>
    intro l hl c hc pr hpr
    cases l with
    | nil => simp [clusterLoopF] at hc
    | cons head rest =>
      obtain ⟨a, ta⟩ := head
      simp only [clusterLoopF, List.mem_cons] at hc
      rcases hc with rfl | hc
      · simp only at hpr ⊢
        obtain ⟨q, hq, rfl⟩ := List.mem_map.mp hpr
        exact List.rel_of_pairwise_cons hl (List.mem_of_mem_filter hq)
      · exact ih _ ((List.pairwise_cons.mp hl).2.sublist (List.filter_sublist rest)) c hc pr hpr

/-- C4: the Jaccard similarity used by the clusterer is symmetric, bounded by
`0 ≤ jaccard A B ≤ 1`, and returns `0` on two empty token sets (no division
by zero). -/
theorem jaccard_symm_bounded (s1 s2 : Finset String) :
    jaccard s1 s2 = jaccard s2 s1 ∧ 0 ≤ jaccard s1 s2 ∧ jaccard s1 s2 ≤ 1 ∧
      jaccard (∅ : Finset String) (∅ : Finset String) = 0 := by
  refine ⟨?_, ?_, ?_, ?_⟩
  · rw [jaccard, jaccard, Finset.union_comm, Finset.inter_comm]
  · rw [jaccard]
    split
    · positivity
    · exact le_refl 0
  · rw [jaccard]
    split
    · rename_i h
      refine div_le_one_of_le₀ ?_ (by positivity)
      exact_mod_cast Finset.card_le_card (Finset.inter_subset_union)
    · exact zero_le_one
  · simp [jaccard]

/-- C5: `cluster_articles` sorts its input with a stable descending sort on
the effective score key: `sortDesc` permutes the input, its output is
pairwise descending in `scoreKey` (so an article is never preceded by one
with a strictly smaller key, i.e. every article precedes every article of
strictly smaller key), and for every key value the articles carrying that
key appear in their relative input order. -/
theorem sortDesc_stable_desc (l : List Article) :
    List.Perm (sortDesc l) l ∧
    (sortDesc l).Pairwise (fun x y => scoreKey y ≤ scoreKey x) ∧
    ∀ k : Nat, (sortDesc l).filter (fun x => scoreKey x == k) =
      l.filter (fun x => scoreKey x == k) :=
  ⟨sortDesc_perm l, sortDesc_sorted l, fun k => sortDesc_stable l k⟩

/-- C1: for every threshold, stop-word set and input list, the groups
returned by `cluster_articles` partition the input exactly: the parents and
related articles taken together are a permutation of the input (each input
article occurs exactly once across all groups, counted with multiplicity),
and the sum over the groups of `1 + length of related` equals the input
length. -/
theorem clusterArticles_partitions (t : ℚ) (sw : Finset String) (arts : List Article) :
    List.Perm (flattenClusters (clusterArticles t sw arts)) arts ∧
    ((clusterArticles t sw arts).map (fun c => 1 + c.related.length)).sum = arts.length := by
  have hperm : List.Perm (flattenClusters (clusterArticles t sw arts)) arts := by
    unfold clusterArticles
    split
    · rename_i h
      rw [List.isEmpty_iff] at h
      subst h
      simp [flattenClusters]
    · have hlen : ((sortDesc arts).map (fun a => (a, preprocessTitle sw a.title))).length
          ≤ arts.length := by
        rw [List.length_map, (sortDesc_perm arts).length_eq]
      have h := clusterLoopF_perm t arts.length _ hlen
      have hmap : ((sortDesc arts).map (fun a => (a, preprocessTitle sw a.title))).map Prod.fst
          = sortDesc arts := by
        rw [List.map_map]
        have hcomp : (Prod.fst ∘ fun a : Article => (a, preprocessTitle sw a.title)) = id := rfl
        rw [hcomp, List.map_id]
      rw [hmap] at h
      exact h.trans (sortDesc_perm arts)
  refine ⟨hperm, ?_⟩
  have hlen2 := hperm.length_eq
  rwa [flattenClusters_length] at hlen2

/-- C10: in every group returned by `cluster_articles`, the parent's
effective sort key (`scoreKey`, the score as a non-negative integer when its
string form is all digits, otherwise 0) is at least the key of every article
in the group's related list. -/
theorem clusterArticles_parent_key (t : ℚ) (sw : Finset String) (arts : List Article)
    (c : ClusterGroup) (hc : c ∈ clusterArticles t sw arts)
    (pr : Article × ℚ) (hpr : pr ∈ c.related) :
    scoreKey pr.1 ≤ scoreKey c.parent := by
  unfold clusterArticles at hc
  split at hc
  · simp at hc
  · refine clusterLoopF_parent_ge t arts.length _ ?_ c hc pr hpr
    rw [List.pairwise_map]
    exact sortDesc_sorted arts

/-- C10 witness: a concrete two-article input whose single cluster has the
score-5 article as parent and the score-3 article as its related member. -/
theorem clusterArticles_parent_key_witness :
    scoreKey (⟨"", "3", "b"⟩ : Article) ≤
      scoreKey (ClusterGroup.mk ⟨"", "5", "a"⟩ [(⟨"", "3", "b"⟩, 0)]).parent :=
  clusterArticles_parent_key 0 ∅ [⟨"", "3", "b"⟩, ⟨"", "5", "a"⟩]
    (ClusterGroup.mk ⟨"", "5", "a"⟩ [(⟨"", "3", "b"⟩, 0)]) (by decide)
    (⟨"", "3", "b"⟩, 0) (by decide)

end Cluster

namespace Scraper

open Py

/-- C2 counterexample: an RSS entry with an empty title and a non-numeric
comment text in its description yields a Hacker News record whose `title` is
`""` and whose `comments` field is `"many"` — neither a numeric-looking
string nor `"0"` — and a Reddit post without `title`/`author` keys yields a
record whose title and author are `None`, not a string at all; the code
copies all of these through without validation or defaults. -/
theorem hn_record_violates_contract :
    (hnEntryArticle ⟨"", "http://x", some "Points: 5<br>Comments: many<a>", none, none⟩).title
        = "" ∧
    (hnEntryArticle ⟨"", "http://x", some "Points: 5<br>Comments: many<a>", none, none⟩).comments
        = "many" ∧
    pyIsDigit "many" = false ∧ "many" ≠ "0" ∧
    (redditEntryArticle ⟨none, none, none, none, none⟩).title = none ∧
    (redditEntryArticle ⟨none, none, none, none, none⟩).author = none := by
  decide

theorem hnLink_ne_empty (href : String) : hnLink href ≠ "" := by
  unfold hnLink
  split
  · rename_i hpre
    intro h0
    subst h0
    exact absurd hpre (by decide)
  · intro h0
    have h2 := congrArg String.data h0
    simp [String.data_append] at h2

theorem hnHtmlRowArticle_fields (row : HtmlRow) (a : ScrapedArticle)
    (h : hnHtmlRowArticle row = some a) :
    a.source = "Hacker News" ∧ a.link ≠ "" ∧
      ∃ tl, row.titleLine = some tl ∧ a.title = tl.1 := by
  unfold hnHtmlRowArticle at h
  split at h
  · exact absurd h (by simp)
  · rename_i t href htl
    split at h
    · injection h with ha
      subst ha
      exact ⟨rfl, hnLink_ne_empty href, ⟨(t, href), htl, rfl⟩⟩
    · split at h
      · exact absurd h (by simp)
      · injection h with ha
        subst ha
        exact ⟨rfl, hnLink_ne_empty href, ⟨(t, href), htl, rfl⟩⟩

/-- C2 (amended): at every append site `source` is a non-empty constant.
On the feed paths (Hacker News RSS, TechCrunch, The Verge, Ars Technica)
`title` and `link` are copied verbatim from the entry — non-empty exactly
when the upstream values are — with `comments` literally `"0"` except for
Hacker News, whose comment count is unvalidated description text.  On the
Hacker News HTML fallback `link` is always non-empty and `title` is the
row's title text verbatim.  On the Reddit path `title`, `link` and `author`
are passed through `p_data.get(...)` with no default at all (they can be
missing), and only `time`/`source`/`comments` receive constants or string
conversion. -/
theorem record_fields_amended (entries : List FeedEntry) (posts : List RedditPost)
    (pages : List (List HtmlRow))
    (hfeed : ∀ e ∈ entries, e.title ≠ "" ∧ e.link ≠ "")
    (hrows : ∀ rows ∈ pages, ∀ row ∈ rows, row.titleOk = true) :
    (∀ a ∈ hnScrapeRSS entries,
        a.title ≠ "" ∧ a.link ≠ "" ∧ a.source = "Hacker News") ∧
    (∀ a ∈ hnScrapeHtml pages,
        a.title ≠ "" ∧ a.link ≠ "" ∧ a.source = "Hacker News") ∧
    (∀ a ∈ tcScrapeEntries entries,
        a.title ≠ "" ∧ a.link ≠ "" ∧ a.source = "TechCrunch" ∧ a.comments = "0") ∧
    (∀ a ∈ tvScrapeEntries entries,
        a.title ≠ "" ∧ a.link ≠ "" ∧ a.source = "The Verge" ∧ a.comments = "0") ∧
    (∀ a ∈ arsScrapeEntries entries,
        a.title ≠ "" ∧ a.link ≠ "" ∧ a.source = "Ars Technica" ∧ a.comments = "0") ∧
    (∀ a ∈ redditScrapeJSON posts, a.source = "Reddit" ∧ a.time = "Today" ∧
        ∃ p ∈ posts, a.title = p.title ∧ a.link = p.url ∧ a.author = p.author) := by
  refine ⟨?_, ?_, ?_, ?_, ?_, ?_⟩
  · intro a ha
    obtain ⟨e, he, rfl⟩ := List.mem_map.mp ha
    exact ⟨(hfeed e he).1, (hfeed e he).2, rfl⟩
  · intro a ha
    obtain ⟨l, hl, hal⟩ := List.mem_flatten.mp ha
    obtain ⟨rows, hrowsmem, rfl⟩ := List.mem_map.mp hl
    obtain ⟨row, hrowmem, hsome⟩ := List.mem_filterMap.mp hal
    obtain ⟨hsrc, hlink, tl, htl, httl⟩ := hnHtmlRowArticle_fields row a hsome
    refine ⟨?_, hlink, hsrc⟩
    have hok := hrows rows hrowsmem row hrowmem
    simp only [HtmlRow.titleOk, htl] at hok
    rw [httl]
    simpa using hok
  · intro a ha
    obtain ⟨e, he, rfl⟩ := List.mem_map.mp ha
    have he' : e ∈ entries := List.mem_of_mem_take he
    exact ⟨(hfeed e he').1, (hfeed e he').2, rfl, rfl⟩
  · intro a ha
    obtain ⟨e, he, rfl⟩ := List.mem_map.mp ha
    have he' : e ∈ entries := List.mem_of_mem_take he
    exact ⟨(hfeed e he').1, (hfeed e he').2, rfl, rfl⟩
  · intro a ha
    obtain ⟨e, he, rfl⟩ := List.mem_map.mp ha
    have he' : e ∈ entries := List.mem_of_mem_take he
    exact ⟨(hfeed e he').1, (hfeed e he').2, rfl, rfl⟩
  · intro a ha
    obtain ⟨p, hp, rfl⟩ := List.mem_map.mp ha
    exact ⟨rfl, rfl, p, hp, rfl, rfl, rfl⟩

/-- C2 witness: a concrete feed entry with non-empty title and link, a
concrete Reddit post, and a concrete HTML fallback row with a relative
href. -/
theorem record_fields_amended_witness :
    (∀ a ∈ hnScrapeRSS [⟨"t", "l", none, none, none⟩],
        a.title ≠ "" ∧ a.link ≠ "" ∧ a.source = "Hacker News") ∧
    (∀ a ∈ hnScrapeHtml [[⟨some ("ht", "item?id=1"), none⟩]],
        a.title ≠ "" ∧ a.link ≠ "" ∧ a.source = "Hacker News") ∧
    (∀ a ∈ tcScrapeEntries [⟨"t", "l", none, none, none⟩],
        a.title ≠ "" ∧ a.link ≠ "" ∧ a.source = "TechCrunch" ∧ a.comments = "0") ∧
    (∀ a ∈ tvScrapeEntries [⟨"t", "l", none, none, none⟩],
        a.title ≠ "" ∧ a.link ≠ "" ∧ a.source = "The Verge" ∧ a.comments = "0") ∧
    (∀ a ∈ arsScrapeEntries [⟨"t", "l", none, none, none⟩],
        a.title ≠ "" ∧ a.link ≠ "" ∧ a.source = "Ars Technica" ∧ a.comments = "0") ∧
    (∀ a ∈ redditScrapeJSON [⟨some "rt", some "http://r", none, some "au", some 7⟩],
        a.source = "Reddit" ∧ a.time = "Today" ∧
        ∃ p ∈ [(⟨some "rt", some "http://r", none, some "au", some 7⟩ : RedditPost)],
          a.title = p.title ∧ a.link = p.url ∧ a.author = p.author) :=
  record_fields_amended [⟨"t", "l", none, none, none⟩]
    [⟨some "rt", some "http://r", none, some "au", some 7⟩]
    [[⟨some ("ht", "item?id=1"), none⟩]]
    (by decide) (by decide)

/-- C6 counterexample: a failed run followed by a successful one leaves a
health snapshot whose status is `"ok"` (≠ `"error"`) but that still carries
the stale diagnostic of the failed run — success never clears `last_error`. -/
theorem health_stale_error :
    (getHealth (runAll [.failure "boom", .success []])).status ≠ "error" ∧
    (getHealth (runAll [.failure "boom", .success []])).lastError ≠ "" := by
  decide

theorem runAllFrom_no_failure (outs : List FetchOutcome) :
    ∀ st : ScraperState, (∀ o ∈ outs, o.isFailure = false) →
      st.lastError = "" → st.lastStatus ≠ "error" →
      (outs.foldl tcScrape st).lastError = "" ∧
        (outs.foldl tcScrape st).lastStatus ≠ "error" := by
  induction outs with
  | nil => intro st _ h1 h2; exact ⟨h1, h2⟩
  | cons o outs ih =>
    intro st hno h1 h2
    cases o with
    | success entries =>
      refine ih _ (fun o ho => hno o (List.mem_cons_of_mem _ ho)) ?_ ?_
      · simpa [tcScrape] using h1
      · simp [tcScrape]
    | failure msg =>
      have hfail := hno _ (List.mem_cons_self _ _)
      simp [FetchOutcome.isFailure] at hfail

/-- C6 (amended): `last_error` holds the diagnostic of the most recent
failed run and is never cleared by a later successful run; consequently the
snapshot's `lastError` is guaranteed empty (with status never `"error"`)
only for histories in which no run ever failed. -/
theorem health_clean_when_no_failure (outs : List FetchOutcome)
    (h : ∀ o ∈ outs, o.isFailure = false) :
    (getHealth (runAll outs)).lastError = "" ∧
      (getHealth (runAll outs)).status ≠ "error" :=
  runAllFrom_no_failure outs initState h rfl (by decide)

/-- C6 witness: one successful run from the initial state. -/
theorem health_clean_when_no_failure_witness :
    (getHealth (runAll [.success []])).lastError = "" ∧
      (getHealth (runAll [.success []])).status ≠ "error" :=
  health_clean_when_no_failure [.success []] (by decide)

end Scraper

namespace Agg

open Scraper

/-- C3: when `force` is false, the cached articles are non-empty and the
cache is younger than the TTL, `scrape_all` returns the cached state
unchanged and submits zero scraper invocations; applied to the state left by
a previous run, this says a second call within the TTL window returns the
identical article sequence with zero upstream fetches. -/
theorem scrape_all_cache_hit (results : SourceId → List ScrapedArticle)
    (completed : List SourceId) (now : Nat) (s : AggState)
    (hne : s.articles ≠ []) (hfresh : now - s.lastScrapeTime < CACHE_TTL) :
    scrape_all results completed now false s = (s, 0) := by
  simp [scrape_all, hne, hfresh]

/-- C3 witness: a concrete fresh, non-empty cache. -/
theorem scrape_all_cache_hit_witness :
    scrape_all (fun _ => []) [] 100 false
        ⟨[⟨"t", "l", 0, "a", "now", "0", "HN"⟩], 50⟩
      = (⟨[⟨"t", "l", 0, "a", "now", "0", "HN"⟩], 50⟩, 0) :=
  scrape_all_cache_hit (fun _ => []) [] 100
    ⟨[⟨"t", "l", 0, "a", "now", "0", "HN"⟩], 50⟩ (by decide) (by decide)

/-- C7 counterexample: a cache-missing run whose scrapers all return empty
lists replaces a previously non-empty cache with the empty list — the run
fails to produce any result yet does not leave the cache untouched. -/
theorem scrape_all_empties_cache :
    ((scrape_all (fun _ => []) registrationOrder 400 false
        ⟨[⟨"t", "l", 0, "a", "now", "0", "HN"⟩], 0⟩).1).articles = [] ∧
    ([⟨"t", "l", 0, "a", "now", "0", "HN"⟩] : List ScrapedArticle) ≠ [] := by
  decide

/-- C7 (amended): in the sequential model every `scrape_all` call is atomic:
it either returns the state exactly unchanged (a cache hit) or wholly
replaces the cache with the concatenation of the per-source results and the
new timestamp — including when that concatenation is empty, in which case
the old cache contents are overwritten rather than preserved. -/
theorem scrape_all_replace_or_keep (results : SourceId → List ScrapedArticle)
    (completed : List SourceId) (now : Nat) (force : Bool) (s : AggState) :
    scrape_all results completed now force s = (s, 0) ∨
    scrape_all results completed now force s
      = (⟨(registrationOrder.map results).flatten, now⟩, registrationOrder.length) := by
  unfold scrape_all
  split
  · exact Or.inl rfl
  · exact Or.inr rfl

/-- C8: with the cache bypassed (`force = true`) the stored article sequence
is the concatenation of the per-source results in registration order —
HackerNews, TechCrunch, Reddit, TheVerge, ArsTechnica — and the outcome is
the same for any two completion orders of the parallel workers, so identical
per-source results always yield the same combined sequence. -/
theorem scrape_all_registration_order (results : SourceId → List ScrapedArticle)
    (completed₁ completed₂ : List SourceId) (now : Nat) (s : AggState) :
    scrape_all results completed₁ now true s = scrape_all results completed₂ now true s ∧
    ((scrape_all results completed₁ now true s).1).articles
      = results .hackerNews ++ results .techCrunch ++ results .reddit
          ++ results .theVerge ++ results .arsTechnica := by
  constructor
  · rfl
  · simp [scrape_all, registrationOrder]

end Agg
